import Mathlib

/-!
Shallow embedding of the ODMF time-series dataset engine
(`odmf/db/dataset.py` and `dataimport/base.py`).

Modelling conventions:
* Timestamps and measured values are rationals (`ℚ`); `datetime`
  subtraction followed by `total_seconds()` becomes plain subtraction.
* A nullable SQL float column becomes `Option ℚ` (`none` = SQL NULL,
  and, inside a pandas series, `NaN`).
* ORM queries (`filter` / `order_by` / `first`) become list `filter`,
  `List.insertionSort` by the ordering column and `head?`.
* Raised exceptions become `Except PyError`; the error constructors use
  the spec's error taxonomy names for the corresponding `raise` sites.
-/

/-- Error kinds of the engine (spec taxonomy for the `raise` sites of the
source plus Python runtime errors reachable in the embedded code). -/
inductive PyError where
  | noData
  | invalidSplitPoint
  | attributeError
  | valueError
  | typeError
  deriving Repr, DecidableEq

/-- Embedding of `Record` (`dataset.py`): id, time, nullable raw value,
optional sample and comment, error flag. The owning-dataset foreign key is
represented by membership in `Timeseries.records`. -/
structure Rec where
  id : ℤ
  time : ℚ
  value : Option ℚ
  sample : Option String := none
  comment : Option String := none
  is_error : Bool := false
  deriving Repr, DecidableEq

/-- Embedding of the `Timeseries` dataset variant (`dataset.py`): metadata
fields used by the engine plus the owned records (the `records` backref). -/
structure Timeseries where
  id : ℤ
  name : Option String := none
  filename : Option String := none
  start : Option ℚ := none
  end_ : Option ℚ := none
  comment : String := ""
  calibration_offset : ℚ := 0
  calibration_slope : ℚ := 1
  access : ℤ := 1
  records : List Rec := []
  deriving Repr, DecidableEq

/-- `ORDER BY record.time ASC`. -/
def timeAsc (a b : Rec) : Prop := a.time ≤ b.time

/-- `ORDER BY record.time DESC`. -/
def timeDesc (a b : Rec) : Prop := b.time ≤ a.time

instance : DecidableRel timeAsc := fun a b => inferInstanceAs (Decidable (a.time ≤ b.time))

instance : DecidableRel timeDesc := fun a b => inferInstanceAs (Decidable (b.time ≤ a.time))

instance : IsTotal Rec timeAsc := ⟨fun a b => le_total a.time b.time⟩

instance : IsTrans Rec timeAsc := ⟨fun _ _ _ h h' => le_trans h h'⟩

instance : IsTotal Rec timeDesc := ⟨fun a b => le_total b.time a.time⟩

instance : IsTrans Rec timeDesc := ⟨fun _ _ _ h h' => le_trans h' h⟩

/-- `query.order_by(Record.time).first()`. -/
def queryFirstAsc (l : List Rec) : Option Rec := (List.insertionSort timeAsc l).head?

/-- `query.order_by(sql.desc(Record.time)).first()`. -/
def queryFirstDesc (l : List Rec) : Option Rec := (List.insertionSort timeDesc l).head?

/-- The filter of a valid record in `Timeseries.findvalue` / `findjumps`:
`Record.value.isnot(None), ~Record.is_error`. -/
def Rec.validB (r : Rec) : Bool := r.value.isSome && !r.is_error

/-- All valid (non-null, non-error) records of a dataset. -/
def validRecs (ds : Timeseries) : List Rec := ds.records.filter Rec.validB

/-- The ORM query for `next` in `Timeseries.findvalue`:
first record ordered by time with `time >= t`, non-null, non-error. -/
def nextQuery (ds : Timeseries) (t : ℚ) : Option Rec :=
  queryFirstAsc (ds.records.filter (fun r => decide (t ≤ r.time) && r.validB))

/-- The ORM query for `last` in `Timeseries.findvalue`:
first record ordered by descending time with `time <= t`, non-null, non-error. -/
def lastQuery (ds : Timeseries) (t : ℚ) : Option Rec :=
  queryFirstDesc (ds.records.filter (fun r => decide (r.time ≤ t) && r.validB))

/-- Embedding of `Timeseries.findvalue` (`dataset.py` 427-446): linear
interpolation between the nearest valid records around `time`, with the
0.1 second tie-break and one-sided fallbacks; raises when no record exists.
Note the source interpolates the *raw* `Record.value`, not the calibrated
value. -/
def Timeseries.findvalue (ds : Timeseries) (time : ℚ) : Except PyError (ℚ × ℚ) :=
  match nextQuery ds time, lastQuery ds time with
  | some next, some last =>
    let dt_next := next.time - time
    let dt_last := time - last.time
    let dt := dt_next + dt_last
    if dt < 1/10 then
      .ok (next.value.getD 0, 0)
    else
      .ok ((1 - dt_next / dt) * next.value.getD 0 + (1 - dt_last / dt) * last.value.getD 0,
           min dt_last dt_next)
  | some next, none => .ok (next.value.getD 0, next.time - time)
  | none, some last => .ok (last.value.getD 0, time - last.time)
  | none, none => .error .noData

/-- Spec-side characterisation: `r` is the earliest valid record at or
after `t` (stated by minimality, not by sorting). -/
def IsNextV (ds : Timeseries) (t : ℚ) (r : Rec) : Prop :=
  r ∈ validRecs ds ∧ t ≤ r.time ∧ ∀ x ∈ validRecs ds, t ≤ x.time → r.time ≤ x.time

/-- Spec-side characterisation: `r` is the latest valid record at or
before `t`. -/
def IsLastV (ds : Timeseries) (t : ℚ) (r : Rec) : Prop :=
  r ∈ validRecs ds ∧ r.time ≤ t ∧ ∀ x ∈ validRecs ds, x.time ≤ t → x.time ≤ r.time

/-- No valid record lies at or after `t`. -/
def NoValidAfter (ds : Timeseries) (t : ℚ) : Prop :=
  ∀ r ∈ validRecs ds, ¬ t ≤ r.time

/-- No valid record lies at or before `t`. -/
def NoValidBefore (ds : Timeseries) (t : ℚ) : Prop :=
  ∀ r ∈ validRecs ds, ¬ r.time ≤ t

/-- The valid records carry pairwise distinct timestamps (so "the earliest
record at or after t" is well defined). -/
def DistinctValidTimes (ds : Timeseries) : Prop :=
  (validRecs ds).Pairwise (fun a b => a.time ≠ b.time)


/-- Record at time 0 with raw value 0 (spec boundary example). -/
def recA : Rec := { id := 1, time := 0, value := some 0 }

/-- Record at time 10 with raw value 10 (spec boundary example). -/
def recB : Rec := { id := 2, time := 10, value := some 10 }

/-- Dataset with records at t0=0 and t1=10, values 0 and 10, identity
calibration (spec boundary example for `findValue`). -/
def dsTwoPoints : Timeseries :=
  { id := 1, start := some 0, end_ := some 10, records := [recA, recB] }

/-- Dataset holding only the t0=0 record (spec boundary example). -/
def dsOnePoint : Timeseries :=
  { id := 2, start := some 0, end_ := some 10, records := [recA] }

/-- Dataset with a non-identity calibration (slope 2) and a single record
with raw value 1, to separate raw from calibrated results. -/
def dsSlope2 : Timeseries :=
  { id := 3, calibration_slope := 2, records := [{ id := 1, time := 0, value := some 1 }] }


instance (ds : Timeseries) (t : ℚ) (r : Rec) : Decidable (IsNextV ds t r) :=
  inferInstanceAs (Decidable (_ ∧ _ ∧ _))

instance (ds : Timeseries) (t : ℚ) (r : Rec) : Decidable (IsLastV ds t r) :=
  inferInstanceAs (Decidable (_ ∧ _ ∧ _))

instance (ds : Timeseries) (t : ℚ) : Decidable (NoValidAfter ds t) :=
  inferInstanceAs (Decidable (∀ r ∈ validRecs ds, ¬ t ≤ r.time))

instance (ds : Timeseries) (t : ℚ) : Decidable (NoValidBefore ds t) :=
  inferInstanceAs (Decidable (∀ r ∈ validRecs ds, ¬ r.time ≤ t))

instance (ds : Timeseries) : Decidable (DistinctValidTimes ds) :=
  inferInstanceAs (Decidable ((validRecs ds).Pairwise _))


/-- `Record.value.isnot(None)` — the filter used by `Timeseries.split`
(which, unlike `findvalue`, does not exclude error records). -/
def Rec.nonnullB (r : Rec) : Bool := r.value.isSome

/-- Embedding of `Dataset.copy` (`dataset.py` 210-232): same metadata under
a fresh id, with no records. -/
def Timeseries.copy (ds : Timeseries) (id : ℤ) : Timeseries :=
  { ds with id := id, records := [] }

/-- The `next` query of `Timeseries.split`: first non-null record at or
after the split time, ordered by time. -/
def splitNextQuery (ds : Timeseries) (t : ℚ) : Option Rec :=
  queryFirstAsc (ds.records.filter (fun r => decide (t ≤ r.time) && r.nonnullB))

/-- The `last` query of `Timeseries.split`: first non-null record at or
before the split time, ordered by descending time. -/
def splitLastQuery (ds : Timeseries) (t : ℚ) : Option Rec :=
  queryFirstDesc (ds.records.filter (fun r => decide (r.time ≤ t) && r.nonnullB))

/-- Embedding of `Timeseries.split` (`dataset.py` 357-381): copies the
dataset, reassigns every record with `time >= next.time` to the copy, sets
`end`/`start` to the straddling record times and cross-references the two
comments; raises when no record straddles the split time. -/
def Timeseries.split (ds : Timeseries) (time : ℚ) (newid : ℤ) :
    Except PyError (Timeseries × Timeseries) :=
  match splitNextQuery ds time, splitLastQuery ds time with
  | some next, some last =>
    let comment1 := ds.comment ++ " Dataset is splitted at " ++ toString time ++
      " to allow for different calibration"
    let dsnew := Timeseries.copy { ds with comment := comment1 } newid
    let comment2 := comment1 ++ ". Other part of the dataset is ds" ++ toString newid ++ "\n"
    let commentNew := dsnew.comment ++ ". Other part of the dataset is ds" ++ toString ds.id ++ "\n"
    let moved := ds.records.filter (fun r => decide (next.time ≤ r.time))
    let kept := ds.records.filter (fun r => !decide (next.time ≤ r.time))
    .ok ({ ds with comment := comment2, end_ := some last.time, records := kept },
         { dsnew with comment := commentNew, start := some next.time, records := moved })
  | _, _ => .error .invalidSplitPoint

/-- Spec-side characterisation: `tn` is the time of the earliest non-null
record at or after `t`. -/
def IsNextTime (ds : Timeseries) (t tn : ℚ) : Prop :=
  (∃ r ∈ ds.records, r.value.isSome ∧ t ≤ r.time ∧ r.time = tn) ∧
  ∀ r ∈ ds.records, r.value.isSome → t ≤ r.time → tn ≤ r.time

/-- Spec-side characterisation: `tl` is the time of the latest non-null
record at or before `t`. -/
def IsLastTime (ds : Timeseries) (t tl : ℚ) : Prop :=
  (∃ r ∈ ds.records, r.value.isSome ∧ r.time ≤ t ∧ r.time = tl) ∧
  ∀ r ∈ ds.records, r.value.isSome → r.time ≤ t → r.time ≤ tl

/-- `s` mentions the dataset id `i` as a textual cross-reference `ds<i>`. -/
def ContainsRef (s : String) (i : ℤ) : Prop :=
  ∃ a b : String, s = (a ++ ("ds" ++ toString i)) ++ b

instance (ds : Timeseries) (t tn : ℚ) : Decidable (IsNextTime ds t tn) :=
  inferInstanceAs (Decidable (_ ∧ _))

instance (ds : Timeseries) (t tl : ℚ) : Decidable (IsLastTime ds t tl) :=
  inferInstanceAs (Decidable (_ ∧ _))


/-- SQL three-valued comparison `Record.time >= bound` for a nullable bound:
a comparison with NULL is not true, filtering every row out. -/
def sqlGe (t : ℚ) (bound : Option ℚ) : Bool :=
  match bound with
  | some b => decide (b ≤ t)
  | none => false

/-- SQL three-valued comparison `Record.time <= bound` for a nullable bound. -/
def sqlLe (t : ℚ) (bound : Option ℚ) : Bool :=
  match bound with
  | some b => decide (t ≤ b)
  | none => false

/-- The yield condition of the `findjumps` loop:
`threshold == 0.0 or (last and abs(rec.value - last.value) > threshold)`. -/
def jumpCond (threshold : ℚ) (last : Option Rec) (v : ℚ) : Bool :=
  decide (threshold = 0) ||
    (match last with
     | some lr => decide (|v - lr.value.getD 0| > threshold)
     | none => false)

/-- The generator loop of `Timeseries.findjumps`: walks the time-ordered
records, yields a record when `jumpCond` holds and remembers the latest
non-null record as `last`. -/
def jumpsLoop (threshold : ℚ) : Option Rec → List Rec → List Rec
  | _, [] => []
  | last, r :: rest =>
    match r.value with
    | some v =>
      (if jumpCond threshold last v then [r] else []) ++ jumpsLoop threshold (some r) rest
    | none => jumpsLoop threshold last rest

/-- Embedding of `Timeseries.findjumps` (`dataset.py` 411-424): scans the
valid records ordered by time inside `[start or self.start, end or self.end]`
and yields the records whose raw value differs from the previous valid
record's raw value by more than `threshold`; `threshold == 0` yields every
scanned record. -/
def Timeseries.findjumps (ds : Timeseries) (threshold : ℚ) (start? end? : Option ℚ) : List Rec :=
  let s := match start? with | some x => some x | none => ds.start
  let e := match end? with | some x => some x | none => ds.end_
  let records := List.insertionSort timeAsc (ds.records.filter (fun r =>
    r.validB && sqlGe r.time s && sqlLe r.time e))
  jumpsLoop threshold none records


/-- Ascending order on the `(time, value)` rows of a pandas series
(`sort_index`). -/
def rowLe (a b : ℚ × Option ℚ) : Prop := a.1 ≤ b.1

instance : DecidableRel rowLe := fun a b => inferInstanceAs (Decidable (a.1 ≤ b.1))

instance : IsTotal (ℚ × Option ℚ) rowLe := ⟨fun a b => le_total a.1 b.1⟩

instance : IsTrans (ℚ × Option ℚ) rowLe := ⟨fun _ _ _ h h' => le_trans h h'⟩

/-- Embedding of `Timeseries.asseries` (`dataset.py` 526-553): the
`(time, value)` rows of the dataset's records (errors excluded unless
requested, nulls kept as NaN), empty-checked, sorted by time, then
calibrated `value*slope + offset`. -/
def Timeseries.asseries (ds : Timeseries) (start? end? : Option ℚ)
    (with_errors : Bool := false) : List (ℚ × Option ℚ) :=
  let rows := (ds.records.filter (fun r =>
      (with_errors || !r.is_error) &&
      (match start? with | some st => decide (st ≤ r.time) | none => true) &&
      (match end? with | some en => decide (r.time ≤ en) | none => true))).map
    (fun r => (r.time, r.value))
  if rows.isEmpty then []
  else (List.insertionSort rowLe rows).map
    (fun p => (p.1, p.2.map (fun v => v * ds.calibration_slope + ds.calibration_offset)))

/-- SQL `avg` aggregate over the non-null raw values: NULL on an empty set. -/
def sqlAvg (vs : List ℚ) : Option ℚ :=
  if vs.length = 0 then none else some (vs.sum / vs.length)

/-- SQL `stddev_samp` aggregate: NULL for fewer than two values, else the
sample (ddof = 1) standard deviation, over `ℝ` for the square root. -/
noncomputable def sqlStddevSamp (vs : List ℚ) : Option ℝ :=
  if vs.length ≤ 1 then none
  else some (Real.sqrt
    (((vs.map (fun v => (v - vs.sum / vs.length) ^ 2)).sum / ((vs.length : ℚ) - 1) : ℚ) : ℝ))

/-- Embedding of the push-down aggregate path of `Timeseries.statistics`
(`dataset.py` 389-402): SQL `avg`, `stddev_samp`, `count` over the raw
values of *all* records of the dataset (the query filters only on the
dataset id — error records are included), NULL aggregates replaced by 0.0,
then `avg*slope + offset` and `std*slope`. -/
noncomputable def Timeseries.statistics_sql (ds : Timeseries) : ℚ × ℝ × ℕ :=
  let vals := ds.records.filterMap (fun r => r.value)
  let avg := (sqlAvg vals).getD 0
  let std : ℝ := (sqlStddevSamp vals).getD 0
  (avg * ds.calibration_slope + ds.calibration_offset,
   std * (ds.calibration_slope : ℝ),
   vals.length)

/-- `np.mean` on a pandas series (dispatches to `Series.mean`, skipna):
NaN when no non-NaN entry exists. -/
def npMean (vs : List (Option ℚ)) : Option ℚ :=
  let xs := vs.reduceOption
  if xs.length = 0 then none else some (xs.sum / xs.length)

/-- `np.std` on a pandas series (dispatches to `Series.std` with `ddof=0`,
skipna): the population standard deviation, NaN when no non-NaN entry
exists. -/
noncomputable def npStd (vs : List (Option ℚ)) : Option ℝ :=
  let xs := vs.reduceOption
  if xs.length = 0 then none
  else some (Real.sqrt
    (((xs.map (fun v => (v - xs.sum / xs.length) ^ 2)).sum / (xs.length : ℚ) : ℚ) : ℝ))

/-- Embedding of the fallback path of `Timeseries.statistics`
(`dataset.py` 404-409): materializes the calibrated non-error series and
returns `np.mean(s), np.std(s), len(s)`, with `(0.0, 0.0, 0)` for an empty
series. -/
noncomputable def Timeseries.statistics_fallback (ds : Timeseries) : Option ℚ × Option ℝ × ℕ :=
  let s := ds.asseries none none
  if s.length = 0 then (some 0, some 0, 0)
  else (npMean (s.map Prod.snd), npStd (s.map Prod.snd), s.length)

/-- Empty dataset with a non-trivial calibration offset. -/
def dsEmpty5 : Timeseries := { id := 10, calibration_offset := 5, records := [] }

/-- Dataset whose only record is flagged as an error (raw value 7),
calibration offset 5. -/
def dsErr7 : Timeseries :=
  { id := 11, calibration_offset := 5,
    records := [{ id := 1, time := 0, value := some 7, is_error := true }] }

/-- Dataset with one ordinary record (value 0) and one error record
(value 100), identity calibration. -/
def dsMixed : Timeseries :=
  { id := 12,
    records := [{ id := 1, time := 0, value := some 0 },
                { id := 2, time := 1, value := some 100, is_error := true }] }

/-- Dataset with two ordinary records of raw values 0 and 2, identity
calibration. -/
def dsClean02 : Timeseries :=
  { id := 13,
    records := [{ id := 1, time := 0, value := some 0 },
                { id := 2, time := 1, value := some 2 }] }


/-- Restricted arithmetic expressions of the sandboxed minimal `asteval`
interpreter: the single free variable `x`, numeric constants and arithmetic
operators. -/
inductive Expr where
  | var
  | const (q : ℚ)
  | add (a b : Expr)
  | sub (a b : Expr)
  | mul (a b : Expr)
  | neg (a : Expr)
  deriving Repr, DecidableEq

/-- NaN-propagating binary arithmetic (numpy semantics for NaN operands). -/
def optBin (f : ℚ → ℚ → ℚ) : Option ℚ → Option ℚ → Option ℚ
  | some a, some b => some (f a b)
  | _, _ => none

/-- A numpy value: a scalar or a one-dimensional array. -/
inductive NpVal where
  | scalar (v : Option ℚ)
  | arr (vs : List (Option ℚ))
  deriving Repr, DecidableEq

/-- numpy broadcasting of a binary operation; arrays of different lengths
raise `ValueError`. -/
def npBroadcast (f : Option ℚ → Option ℚ → Option ℚ) : NpVal → NpVal → Except PyError NpVal
  | .scalar a, .scalar b => .ok (.scalar (f a b))
  | .scalar a, .arr bs => .ok (.arr (bs.map (fun b => f a b)))
  | .arr av, .scalar b => .ok (.arr (av.map (fun a => f a b)))
  | .arr av, .arr bs =>
    if av.length = bs.length then .ok (.arr (List.zipWith f av bs)) else .error .valueError

/-- The interpreter run on the expression with `symtable['x']` bound to a
numpy array. -/
def Expr.evalNp : Expr → List (Option ℚ) → Except PyError NpVal
  | .var, xs => .ok (.arr xs)
  | .const q, _ => .ok (.scalar (some q))
  | .add a b, xs =>
    match a.evalNp xs, b.evalNp xs with
    | .ok va, .ok vb => npBroadcast (optBin (· + ·)) va vb
    | .error err, _ => .error err
    | _, .error err => .error err
  | .sub a b, xs =>
    match a.evalNp xs, b.evalNp xs with
    | .ok va, .ok vb => npBroadcast (optBin (· - ·)) va vb
    | .error err, _ => .error err
    | _, .error err => .error err
  | .mul a b, xs =>
    match a.evalNp xs, b.evalNp xs with
    | .ok va, .ok vb => npBroadcast (optBin (· * ·)) va vb
    | .error err, _ => .error err
    | _, .error err => .error err
  | .neg a, xs =>
    match a.evalNp xs with
    | .error err => .error err
    | .ok (.scalar v) => .ok (.scalar (v.map (fun q => -q)))
    | .ok (.arr vs) => .ok (.arr (vs.map (Option.map (fun q => -q))))

/-- A dynamically typed Python value reaching
`TransformedTimeseries.transform`: a float (or `None`), or a pandas
series. -/
inductive PyObj where
  | float (v : Option ℚ)
  | series (rows : List (ℚ × Option ℚ))
  deriving Repr, DecidableEq

/-- `x.to_numpy()`: defined on a pandas series; a float (or `None`) has no
such attribute, so the call raises `AttributeError`. -/
def PyObj.toNumpy : PyObj → Except PyError (List (Option ℚ))
  | .series rows => .ok (rows.map Prod.snd)
  | .float _ => .error .attributeError

/-- `pd.Series(result, index=x.index)`: broadcasts a scalar over the index,
pairs an equal-length array with it, raises `ValueError` on a length
mismatch; `x.index` on a float raises `AttributeError`. -/
def pdSeriesWithIndex (result : NpVal) : PyObj → Except PyError PyObj
  | .series rows =>
    match result with
    | .scalar v => .ok (.series (rows.map (fun p => (p.1, v))))
    | .arr vs =>
      if vs.length = rows.length then
        .ok (.series (List.zipWith (fun p v => (p.1, v)) rows vs))
      else .error .valueError
  | .float _ => .error .attributeError

/-- Embedding of `TransformedTimeseries.transform` (`dataset.py` 597-600):
`symtable['x'] = x.to_numpy()`, run the interpreter, wrap the result as
`pd.Series(result, index=x.index)`. -/
def transform (expr : Expr) (x : PyObj) : Except PyError PyObj :=
  match x.toNumpy with
  | .error err => .error err
  | .ok xs =>
    match expr.evalNp xs with
    | .error err => .error err
    | .ok result => pdSeriesWithIndex result x

/-- Embedding of the `TransformedTimeseries` dataset variant: metadata, the
expression, and the source list (the ORM relationship keeps the sources
ordered by `Timeseries.start`). -/
structure TransformedTimeseries where
  id : ℤ
  start : Option ℚ := none
  end_ : Option ℚ := none
  comment : String := ""
  expression : Expr
  sources : List Timeseries := []
  deriving Repr, DecidableEq

/-- The source loop of `TransformedTimeseries.asseries`: per source,
materialize the calibrated series, transform it, append to the
accumulated data. -/
def ttAppend (expr : Expr) (s e : Option ℚ) :
    List Timeseries → List (ℚ × Option ℚ) → Except PyError (List (ℚ × Option ℚ))
  | [], data => .ok data
  | src :: rest, data =>
    match transform expr (.series (src.asseries s e)) with
    | .error err => .error err
    | .ok (.series rows) => ttAppend expr s e rest (data ++ rows)
    | .ok (.float _) => .error .typeError

/-- Embedding of `TransformedTimeseries.asseries` (`dataset.py` 578-591):
evaluates the expression once per source on its calibrated series,
concatenates in source order and time-sorts the result. (The
`plugin.transformation` string-prefix branch of the source is not a
restricted arithmetic expression and is outside this embedding.) -/
def TransformedTimeseries.asseries (tt : TransformedTimeseries) (s e : Option ℚ) :
    Except PyError (List (ℚ × Option ℚ)) :=
  match ttAppend tt.expression s e tt.sources [] with
  | .error err => .error err
  | .ok data => .ok (List.insertionSort rowLe data)

/-- `Record.calibrated` (`dataset.py` 321-327) of a record owned by `ds`:
`slope * value + offset`, `None` for a null value. -/
def Timeseries.calibratedOf (ds : Timeseries) (r : Rec) : Option ℚ :=
  r.value.map (fun v => ds.calibration_slope * v + ds.calibration_offset)

/-- A row of the cross-source record query of
`TransformedTimeseries.iterrecords`, with the record's calibrated value
under its own dataset's calibration. -/
structure SrcRow where
  time : ℚ
  calibrated : Option ℚ
  is_error : Bool := false
  sample : Option String := none
  comment : Option String := none
  deriving Repr, DecidableEq

/-- `ORDER BY record.time` over the joined source records. -/
def srcRowLe (a b : SrcRow) : Prop := a.time ≤ b.time

instance : DecidableRel srcRowLe := fun a b => inferInstanceAs (Decidable (a.time ≤ b.time))

instance : IsTotal SrcRow srcRowLe := ⟨fun a b => le_total a.time b.time⟩

instance : IsTrans SrcRow srcRowLe := ⟨fun _ _ _ h h' => le_trans h h'⟩

/-- The in-memory record (`MemRecord`) yielded by a transformed series'
`iterrecords`; its `value` field holds whatever `self.transform(r.calibrated)`
produced. -/
structure MemRec where
  id : ℤ
  time : ℚ
  value : PyObj
  sample : Option String := none
  comment : Option String := none
  is_error : Bool := false
  deriving Repr, DecidableEq

/-- The yield loop of `TransformedTimeseries.iterrecords`: the counter `i`
is incremented before each yield and becomes the `MemRecord` id. -/
def ttIterLoop (expr : Expr) (i : ℤ) : List SrcRow → Except PyError (List MemRec)
  | [] => .ok []
  | row :: rest =>
    match transform expr (.float row.calibrated) with
    | .error err => .error err
    | .ok v =>
      match ttIterLoop expr (i + 1) rest with
      | .error err => .error err
      | .ok others =>
        .ok (({ id := i + 1, time := row.time, value := v, sample := row.sample,
                comment := row.comment, is_error := row.is_error } : MemRec) :: others)

/-- Embedding of `TransformedTimeseries.iterrecords` (`dataset.py` 602-618):
queries all records of all sources ordered by time (optionally bounded,
errors excluded unless requested) and yields `MemRecord`s whose derived
value is `self.transform(r.calibrated)` — `transform` applied to a scalar
float. -/
def TransformedTimeseries.iterrecords (tt : TransformedTimeseries)
    (witherrors : Bool := false) (s : Option ℚ := none) (e : Option ℚ := none) :
    Except PyError (List MemRec) :=
  let rows := tt.sources.flatMap (fun src => src.records.map (fun r =>
    ({ time := r.time, calibrated := src.calibratedOf r, is_error := r.is_error,
       sample := r.sample, comment := r.comment } : SrcRow)))
  let rows := rows.filter (fun row =>
    (match s with | some st => decide (st ≤ row.time) | none => true) &&
    (match e with | some en => decide (row.time ≤ en) | none => true) &&
    (witherrors || !row.is_error))
  ttIterLoop tt.expression 0 (List.insertionSort srcRowLe rows)

/-- A transformed series with the identity expression `x` over the
two-point dataset. -/
def ttIdentity : TransformedTimeseries :=
  { id := 20, expression := .var, sources := [dsTwoPoints] }

/-- A transformed series with the identity expression `x` over the
one-point dataset. -/
def ttOnePoint : TransformedTimeseries :=
  { id := 21, expression := .var, sources := [dsOnePoint] }


/-- A dataset row as consumed by `finddateGaps` (`dataimport/base.py`):
site and instrument (`source`) foreign keys, value type, and the validity
interval. Times are rational day numbers, so `timedelta(days=1)` is `1`. -/
structure GapDataset where
  id : ℤ
  site : ℤ
  source : ℤ
  valuetype : ℤ
  start : ℚ
  end_ : ℚ
  deriving Repr, DecidableEq

/-- `ORDER BY "valuetype","start"` (lexicographic on the two columns). -/
def vtStartLe (a b : GapDataset) : Prop :=
  a.valuetype < b.valuetype ∨ (a.valuetype = b.valuetype ∧ a.start ≤ b.start)

instance : DecidableRel vtStartLe := fun a b =>
  inferInstanceAs (Decidable (a.valuetype < b.valuetype ∨
    (a.valuetype = b.valuetype ∧ a.start ≤ b.start)))

instance : IsTotal GapDataset vtStartLe := ⟨fun a b => by
  rcases lt_trichotomy a.valuetype b.valuetype with h | h | h
  · exact Or.inl (Or.inl h)
  · rcases le_total a.start b.start with h' | h'
    · exact Or.inl (Or.inr ⟨h, h'⟩)
    · exact Or.inr (Or.inr ⟨h.symm, h'⟩)
  · exact Or.inr (Or.inl h)⟩

instance : IsTrans GapDataset vtStartLe := ⟨fun a b c hab hbc => by
  rcases hab with h | ⟨h1, h2⟩ <;> rcases hbc with h' | ⟨h1', h2'⟩
  · exact Or.inl (lt_trans h h')
  · exact Or.inl (h1' ▸ h)
  · exact Or.inl (h1 ▸ h')
  · exact Or.inr ⟨h1.trans h1', le_trans h2 h2'⟩⟩

/-- Embedding of `finddateGaps` (`dataimport/base.py` 17-51): filters the
datasets of the site/instrument (optionally to those overlapping the given
bounds), restricts to the first occurring value type in
`"valuetype","start"` order, then collects the leading gap, the internal
gaps — with the comparison written exactly as in the source,
`ds1.end - ds2.start >= timedelta(days=1)` — and the trailing gap. -/
def finddateGaps (alldss : List GapDataset) (siteid instrumentid : ℤ)
    (startdate enddate : Option ℚ) : Option (List (ℚ × ℚ)) :=
  let dss0 := alldss.filter (fun d =>
    decide (d.site = siteid) && decide (d.source = instrumentid) &&
    (match startdate with | some sd => decide (sd < d.end_) | none => true) &&
    (match enddate with | some ed => decide (d.start < ed) | none => true))
  let sorted := List.insertionSort vtStartLe dss0
  match sorted.head? with
  | none =>
    match startdate, enddate with
    | some sd, some ed => some [(sd, ed)]
    | _, _ => none
  | some ds1 =>
    match sorted.filter (fun d => decide (d.valuetype = ds1.valuetype)) with
    | [] =>
      match startdate, enddate with
      | some sd, some ed => some [(sd, ed)]
      | _, _ => none
    | d0 :: rest =>
      let dssL := d0 :: rest
      let sd := startdate.getD d0.start
      let ed := enddate.getD (dssL.getLastD d0).end_
      let lead := if sd < d0.start then [(sd, d0.start)] else []
      let internal := (dssL.dropLast.zip dssL.tail).filterMap
        (fun p => if p.1.end_ - p.2.start ≥ 1 then some (p.1.end_, p.2.start) else none)
      let trail := if (dssL.getLastD d0).end_ < ed then [((dssL.getLastD d0).end_, ed)] else []
      some (lead ++ internal ++ trail)

/-- Dataset covering [Jan1, Jan5] (days 1 to 5) at site 1, instrument 1. -/
def gapDsA : GapDataset := { id := 1, site := 1, source := 1, valuetype := 1, start := 1, end_ := 5 }

/-- Dataset covering [Jan8, Jan10] (days 8 to 10) at site 1, instrument 1. -/
def gapDsB : GapDataset := { id := 2, site := 1, source := 1, valuetype := 1, start := 8, end_ := 10 }

-- ===================== THEOREMS =====================

theorem queryFirstAsc_eq_none {l : List Rec} : queryFirstAsc l = none ↔ l = [] := by
  unfold queryFirstAsc
  rw [List.head?_eq_none_iff]
  constructor
  · intro h
    have : l.length = 0 := by
      rw [← List.length_insertionSort timeAsc l, h]
      rfl
    exact List.length_eq_zero.mp this
  · intro h; subst h; rfl

theorem queryFirstDesc_eq_none {l : List Rec} : queryFirstDesc l = none ↔ l = [] := by
  unfold queryFirstDesc
  rw [List.head?_eq_none_iff]
  constructor
  · intro h
    have : l.length = 0 := by
      rw [← List.length_insertionSort timeDesc l, h]
      rfl
    exact List.length_eq_zero.mp this
  · intro h; subst h; rfl

theorem queryFirstAsc_min {l : List Rec} {m : Rec} (h : queryFirstAsc l = some m) :
    m ∈ l ∧ ∀ x ∈ l, m.time ≤ x.time := by
  unfold queryFirstAsc at h
  have hsort := List.sorted_insertionSort timeAsc l
  rcases hs : List.insertionSort timeAsc l with _ | ⟨a, rest⟩
  · rw [hs] at h; exact absurd h (by simp)
  · rw [hs] at h hsort
    have ha : a = m := by simpa using h
    subst ha
    have hmem : a ∈ List.insertionSort timeAsc l := by rw [hs]; exact List.mem_cons_self a rest
    refine ⟨(List.mem_insertionSort timeAsc).mp hmem, ?_⟩
    intro x hx
    have hx' : x ∈ List.insertionSort timeAsc l := (List.mem_insertionSort timeAsc).mpr hx
    rw [hs] at hx'
    rcases List.mem_cons.mp hx' with hxa | hxr
    · subst hxa; exact le_refl _
    · exact List.rel_of_sorted_cons hsort x hxr

theorem queryFirstDesc_max {l : List Rec} {m : Rec} (h : queryFirstDesc l = some m) :
    m ∈ l ∧ ∀ x ∈ l, x.time ≤ m.time := by
  unfold queryFirstDesc at h
  have hsort := List.sorted_insertionSort timeDesc l
  rcases hs : List.insertionSort timeDesc l with _ | ⟨a, rest⟩
  · rw [hs] at h; exact absurd h (by simp)
  · rw [hs] at h hsort
    have ha : a = m := by simpa using h
    subst ha
    have hmem : a ∈ List.insertionSort timeDesc l := by rw [hs]; exact List.mem_cons_self a rest
    refine ⟨(List.mem_insertionSort timeDesc).mp hmem, ?_⟩
    intro x hx
    have hx' : x ∈ List.insertionSort timeDesc l := (List.mem_insertionSort timeDesc).mpr hx
    rw [hs] at hx'
    rcases List.mem_cons.mp hx' with hxa | hxr
    · subst hxa; exact le_refl _
    · exact List.rel_of_sorted_cons hsort x hxr

theorem queryFirstAsc_of_ne_nil {l : List Rec} (h : l ≠ []) : ∃ m, queryFirstAsc l = some m := by
  rcases ho : queryFirstAsc l with _ | m
  · exact absurd (queryFirstAsc_eq_none.mp ho) h
  · exact ⟨m, rfl⟩

theorem queryFirstDesc_of_ne_nil {l : List Rec} (h : l ≠ []) : ∃ m, queryFirstDesc l = some m := by
  rcases ho : queryFirstDesc l with _ | m
  · exact absurd (queryFirstDesc_eq_none.mp ho) h
  · exact ⟨m, rfl⟩

theorem mem_nextFilter {ds : Timeseries} {t : ℚ} {r : Rec} :
    r ∈ ds.records.filter (fun r => decide (t ≤ r.time) && r.validB) ↔
      r ∈ validRecs ds ∧ t ≤ r.time := by
  simp only [validRecs, List.mem_filter, Bool.and_eq_true, decide_eq_true_eq]
  tauto

theorem mem_lastFilter {ds : Timeseries} {t : ℚ} {r : Rec} :
    r ∈ ds.records.filter (fun r => decide (r.time ≤ t) && r.validB) ↔
      r ∈ validRecs ds ∧ r.time ≤ t := by
  simp only [validRecs, List.mem_filter, Bool.and_eq_true, decide_eq_true_eq]
  tauto

theorem nextQuery_eq_none_iff {ds : Timeseries} {t : ℚ} :
    nextQuery ds t = none ↔ NoValidAfter ds t := by
  unfold nextQuery NoValidAfter
  rw [queryFirstAsc_eq_none, List.eq_nil_iff_forall_not_mem]
  constructor
  · intro h r hr ht
    exact h r (mem_nextFilter.mpr ⟨hr, ht⟩)
  · intro h r hr
    obtain ⟨hv, ht⟩ := mem_nextFilter.mp hr
    exact h r hv ht

theorem lastQuery_eq_none_iff {ds : Timeseries} {t : ℚ} :
    lastQuery ds t = none ↔ NoValidBefore ds t := by
  unfold lastQuery NoValidBefore
  rw [queryFirstDesc_eq_none, List.eq_nil_iff_forall_not_mem]
  constructor
  · intro h r hr ht
    exact h r (mem_lastFilter.mpr ⟨hr, ht⟩)
  · intro h r hr
    obtain ⟨hv, ht⟩ := mem_lastFilter.mp hr
    exact h r hv ht

theorem nextQuery_eq_some {ds : Timeseries} {t : ℚ} {n : Rec}
    (hd : DistinctValidTimes ds) (hn : IsNextV ds t n) : nextQuery ds t = some n := by
  obtain ⟨hmem, ht, hmin⟩ := hn
  have hne : ds.records.filter (fun r => decide (t ≤ r.time) && r.validB) ≠ [] :=
    List.ne_nil_of_mem (mem_nextFilter.mpr ⟨hmem, ht⟩)
  obtain ⟨m, hm⟩ := queryFirstAsc_of_ne_nil hne
  obtain ⟨hmmem, hmmin⟩ := queryFirstAsc_min hm
  obtain ⟨hmv, hmt⟩ := mem_nextFilter.mp hmmem
  have h1 : m.time ≤ n.time := hmmin n (mem_nextFilter.mpr ⟨hmem, ht⟩)
  have h2 : n.time ≤ m.time := hmin m hmv hmt
  have heq : m.time = n.time := le_antisymm h1 h2
  have : m = n := by
    by_contra hne'
    exact (hd.forall (fun _ _ h => h.symm) hmv hmem hne') heq
  rw [nextQuery, hm, this]

theorem lastQuery_eq_some {ds : Timeseries} {t : ℚ} {l : Rec}
    (hd : DistinctValidTimes ds) (hl : IsLastV ds t l) : lastQuery ds t = some l := by
  obtain ⟨hmem, ht, hmax⟩ := hl
  have hne : ds.records.filter (fun r => decide (r.time ≤ t) && r.validB) ≠ [] :=
    List.ne_nil_of_mem (mem_lastFilter.mpr ⟨hmem, ht⟩)
  obtain ⟨m, hm⟩ := queryFirstDesc_of_ne_nil hne
  obtain ⟨hmmem, hmmax⟩ := queryFirstDesc_max hm
  obtain ⟨hmv, hmt⟩ := mem_lastFilter.mp hmmem
  have h1 : l.time ≤ m.time := hmmax l (mem_lastFilter.mpr ⟨hmem, ht⟩)
  have h2 : m.time ≤ l.time := hmax m hmv hmt
  have heq : m.time = l.time := le_antisymm h2 h1
  have : m = l := by
    by_contra hne'
    exact (hd.forall (fun _ _ h => h.symm) hmv hmem hne') heq
  rw [lastQuery, hm, this]



theorem findvalue_of_none_none {ds : Timeseries} {t : ℚ}
    (h1 : NoValidAfter ds t) (h2 : NoValidBefore ds t) :
    Timeseries.findvalue ds t = .error .noData := by
  unfold Timeseries.findvalue
  rw [nextQuery_eq_none_iff.mpr h1, lastQuery_eq_none_iff.mpr h2]

/-- C1: `findValue` follows the four-branch policy of the source, **amended**:
each branch returns the record's *raw* value (the source interpolates
`Record.value` without applying the calibration): no valid record on either
side fails with `NoData`; one side only returns that record's raw value with
distance `|t - record.time|`; both sides with combined span below 0.1 s
return `next`'s raw value with distance 0; otherwise the complementary-
fraction linear interpolation of the raw values with distance
`min(dt_last, dt_next)`. The spec's boundary examples (identity calibration)
hold as stated. -/
theorem findvalue_branch_policy_raw :
    (∀ ds t, NoValidAfter ds t → NoValidBefore ds t →
        Timeseries.findvalue ds t = .error .noData) ∧
    (∀ ds t n, DistinctValidTimes ds → IsNextV ds t n → NoValidBefore ds t →
        Timeseries.findvalue ds t = .ok (n.value.getD 0, n.time - t)) ∧
    (∀ ds t l, DistinctValidTimes ds → NoValidAfter ds t → IsLastV ds t l →
        Timeseries.findvalue ds t = .ok (l.value.getD 0, t - l.time)) ∧
    (∀ ds t n l, DistinctValidTimes ds → IsNextV ds t n → IsLastV ds t l →
        Timeseries.findvalue ds t =
          if (n.time - t) + (t - l.time) < 1/10 then
            .ok (n.value.getD 0, 0)
          else
            .ok ((1 - (n.time - t) / ((n.time - t) + (t - l.time))) * n.value.getD 0 +
                 (1 - (t - l.time) / ((n.time - t) + (t - l.time))) * l.value.getD 0,
                 min (t - l.time) (n.time - t))) ∧
    Timeseries.findvalue dsTwoPoints 5 = .ok (5, 5) ∧
    Timeseries.findvalue dsTwoPoints 0 = .ok (0, 0) ∧
    Timeseries.findvalue dsOnePoint 20 = .ok (0, 20) := by
  refine ⟨fun ds t h1 h2 => findvalue_of_none_none h1 h2, ?_, ?_, ?_, by norm_num [Timeseries.findvalue, nextQuery, lastQuery, queryFirstAsc, queryFirstDesc, List.insertionSort, List.orderedInsert, dsTwoPoints, dsOnePoint, dsSlope2, recA, recB, Rec.validB, timeAsc, timeDesc], by norm_num [Timeseries.findvalue, nextQuery, lastQuery, queryFirstAsc, queryFirstDesc, List.insertionSort, List.orderedInsert, dsTwoPoints, dsOnePoint, dsSlope2, recA, recB, Rec.validB, timeAsc, timeDesc], by norm_num [Timeseries.findvalue, nextQuery, lastQuery, queryFirstAsc, queryFirstDesc, List.insertionSort, List.orderedInsert, dsTwoPoints, dsOnePoint, dsSlope2, recA, recB, Rec.validB, timeAsc, timeDesc]⟩
  · intro ds t n hd hn h2
    unfold Timeseries.findvalue
    rw [nextQuery_eq_some hd hn, lastQuery_eq_none_iff.mpr h2]
  · intro ds t l hd h1 hl
    unfold Timeseries.findvalue
    rw [nextQuery_eq_none_iff.mpr h1, lastQuery_eq_some hd hl]
  · intro ds t n l hd hn hl
    unfold Timeseries.findvalue
    rw [nextQuery_eq_some hd hn, lastQuery_eq_some hd hl]

/-- Witness for `findvalue_branch_policy_raw`: the interpolation branch,
instantiated at the spec's two-point dataset and `t = 5`. -/
theorem findvalue_branch_policy_raw_witness :
    (DistinctValidTimes dsTwoPoints ∧ IsNextV dsTwoPoints 5 recB ∧ IsLastV dsTwoPoints 5 recA) ∧
    Timeseries.findvalue dsTwoPoints 5 =
      (if (recB.time - 5) + (5 - recA.time) < 1/10 then
        .ok (recB.value.getD 0, 0)
      else
        .ok ((1 - (recB.time - 5) / ((recB.time - 5) + (5 - recA.time))) * recB.value.getD 0 +
             (1 - (5 - recA.time) / ((recB.time - 5) + (5 - recA.time))) * recA.value.getD 0,
             min (5 - recA.time) (recB.time - 5))) :=
  ⟨⟨by decide, by decide, by decide⟩,
   findvalue_branch_policy_raw.2.2.2.1 dsTwoPoints 5 recB recA (by decide) (by decide) (by decide)⟩

/-- C1 counterexample: with calibration slope 2 and a single record of raw
value 1, `findvalue` returns the raw value 1, not the calibrated value 2 —
so the claim's "returns that record's calibrated value" is false as stated. -/
theorem findvalue_counterexample_calibration :
    Timeseries.findvalue dsSlope2 20 = .ok (1, 20) ∧
    dsSlope2.calibration_slope * 1 + dsSlope2.calibration_offset = 2 ∧
    (1 : ℚ) ≠ 2 := by
  refine ⟨by norm_num [Timeseries.findvalue, nextQuery, lastQuery, queryFirstAsc, queryFirstDesc, List.insertionSort, List.orderedInsert, dsTwoPoints, dsOnePoint, dsSlope2, recA, recB, Rec.validB, timeAsc, timeDesc], by norm_num [dsSlope2], by norm_num⟩


theorem mem_splitNextFilter {ds : Timeseries} {t : ℚ} {r : Rec} :
    r ∈ ds.records.filter (fun r => decide (t ≤ r.time) && r.nonnullB) ↔
      r ∈ ds.records ∧ r.value.isSome ∧ t ≤ r.time := by
  simp only [List.mem_filter, Bool.and_eq_true, decide_eq_true_eq, Rec.nonnullB]
  tauto

theorem mem_splitLastFilter {ds : Timeseries} {t : ℚ} {r : Rec} :
    r ∈ ds.records.filter (fun r => decide (r.time ≤ t) && r.nonnullB) ↔
      r ∈ ds.records ∧ r.value.isSome ∧ r.time ≤ t := by
  simp only [List.mem_filter, Bool.and_eq_true, decide_eq_true_eq, Rec.nonnullB]
  tauto

theorem splitNextQuery_time {ds : Timeseries} {t tn : ℚ} (hn : IsNextTime ds t tn) :
    ∃ m, splitNextQuery ds t = some m ∧ m.time = tn := by
  obtain ⟨⟨r, hr, hv, ht, htn⟩, hmin⟩ := hn
  have hrmem : r ∈ ds.records.filter (fun r => decide (t ≤ r.time) && r.nonnullB) :=
    mem_splitNextFilter.mpr ⟨hr, hv, ht⟩
  obtain ⟨m, hm⟩ := queryFirstAsc_of_ne_nil (List.ne_nil_of_mem hrmem)
  obtain ⟨hmmem, hmmin⟩ := queryFirstAsc_min hm
  obtain ⟨hm1, hm2, hm3⟩ := mem_splitNextFilter.mp hmmem
  refine ⟨m, hm, le_antisymm ?_ ?_⟩
  · rw [← htn]; exact hmmin r hrmem
  · exact hmin m hm1 hm2 hm3

theorem splitLastQuery_time {ds : Timeseries} {t tl : ℚ} (hl : IsLastTime ds t tl) :
    ∃ m, splitLastQuery ds t = some m ∧ m.time = tl := by
  obtain ⟨⟨r, hr, hv, ht, htl⟩, hmax⟩ := hl
  have hrmem : r ∈ ds.records.filter (fun r => decide (r.time ≤ t) && r.nonnullB) :=
    mem_splitLastFilter.mpr ⟨hr, hv, ht⟩
  obtain ⟨m, hm⟩ := queryFirstDesc_of_ne_nil (List.ne_nil_of_mem hrmem)
  obtain ⟨hmmem, hmmax⟩ := queryFirstDesc_max hm
  obtain ⟨hm1, hm2, hm3⟩ := mem_splitLastFilter.mp hmmem
  refine ⟨m, hm, le_antisymm ?_ ?_⟩
  · exact hmax m hm1 hm2 hm3
  · rw [← htl]; exact hmmax r hrmem

set_option maxHeartbeats 1000000 in
theorem split_ok_spec {ds : Timeseries} {t tn tl : ℚ} (nid : ℤ)
    (hn : IsNextTime ds t tn) (hl : IsLastTime ds t tl) :
    ∃ orig dsnew, ds.split t nid = .ok (orig, dsnew) ∧
      orig.id = ds.id ∧ dsnew.id = nid ∧
      dsnew.records = ds.records.filter (fun r => decide (tn ≤ r.time)) ∧
      orig.records = ds.records.filter (fun r => !decide (tn ≤ r.time)) ∧
      (orig.records ++ dsnew.records).Perm ds.records ∧
      orig.end_ = some tl ∧ dsnew.start = some tn ∧
      ContainsRef orig.comment nid ∧ ContainsRef dsnew.comment ds.id := by
  obtain ⟨m, hm, hmt⟩ := splitNextQuery_time hn
  obtain ⟨m', hm', hmt'⟩ := splitLastQuery_time hl
  subst hmt
  subst hmt'
  refine ⟨{ ds with
      comment := (ds.comment ++ " Dataset is splitted at " ++ toString t ++
        " to allow for different calibration") ++ ". Other part of the dataset is ds" ++
        toString nid ++ "\n",
      end_ := some m'.time,
      records := ds.records.filter (fun r => !decide (m.time ≤ r.time)) },
    { ds with
      id := nid,
      comment := (ds.comment ++ " Dataset is splitted at " ++ toString t ++
        " to allow for different calibration") ++ ". Other part of the dataset is ds" ++
        toString ds.id ++ "\n",
      start := some m.time,
      records := ds.records.filter (fun r => decide (m.time ≤ r.time)) },
    ?_, rfl, rfl, rfl, rfl, ?_, rfl, rfl, ?_, ?_⟩
  · unfold Timeseries.split
    rw [hm, hm']
    rfl
  · exact (List.perm_append_comm).trans
      (List.filter_append_perm (fun r => decide (m.time ≤ r.time)) ds.records)
  · refine ⟨(ds.comment ++ " Dataset is splitted at " ++ toString t ++
      " to allow for different calibration") ++ ". Other part of the dataset is ", "\n", ?_⟩
    have h : ". Other part of the dataset is " ++ "ds" = ". Other part of the dataset is ds" := by rfl
    simp only [String.append_assoc, ← h]
  · refine ⟨(ds.comment ++ " Dataset is splitted at " ++ toString t ++
      " to allow for different calibration") ++ ". Other part of the dataset is ", "\n", ?_⟩
    have h : ". Other part of the dataset is " ++ "ds" = ". Other part of the dataset is ds" := by rfl
    simp only [Timeseries.copy, String.append_assoc, ← h]


theorem exists_isNextTime {ds : Timeseries} {t : ℚ}
    (h : ∃ r ∈ ds.records, r.value.isSome ∧ t ≤ r.time) : ∃ tn, IsNextTime ds t tn := by
  obtain ⟨r, hr, hv, ht⟩ := h
  have hrmem : r ∈ ds.records.filter (fun r => decide (t ≤ r.time) && r.nonnullB) :=
    mem_splitNextFilter.mpr ⟨hr, hv, ht⟩
  obtain ⟨m, hm⟩ := queryFirstAsc_of_ne_nil (List.ne_nil_of_mem hrmem)
  obtain ⟨hmmem, hmmin⟩ := queryFirstAsc_min hm
  obtain ⟨hm1, hm2, hm3⟩ := mem_splitNextFilter.mp hmmem
  exact ⟨m.time, ⟨m, hm1, hm2, hm3, rfl⟩,
    fun x hx hxv hxt => hmmin x (mem_splitNextFilter.mpr ⟨hx, hxv, hxt⟩)⟩

theorem exists_isLastTime {ds : Timeseries} {t : ℚ}
    (h : ∃ r ∈ ds.records, r.value.isSome ∧ r.time ≤ t) : ∃ tl, IsLastTime ds t tl := by
  obtain ⟨r, hr, hv, ht⟩ := h
  have hrmem : r ∈ ds.records.filter (fun r => decide (r.time ≤ t) && r.nonnullB) :=
    mem_splitLastFilter.mpr ⟨hr, hv, ht⟩
  obtain ⟨m, hm⟩ := queryFirstDesc_of_ne_nil (List.ne_nil_of_mem hrmem)
  obtain ⟨hmmem, hmmax⟩ := queryFirstDesc_max hm
  obtain ⟨hm1, hm2, hm3⟩ := mem_splitLastFilter.mp hmmem
  exact ⟨m.time, ⟨m, hm1, hm2, hm3, rfl⟩,
    fun x hx hxv hxt => hmmax x (mem_splitLastFilter.mpr ⟨hx, hxv, hxt⟩)⟩

/-- C2: splitting a dataset holding a valid (non-null) record strictly before
`t` and one strictly after `t` succeeds, moves exactly the records with
`time >= next.time` to the new dataset, keeps all the others, loses and
duplicates nothing, sets `original.end = last.time`, `new.start = next.time`,
and cross-references both comments. -/
theorem split_partitions (ds : Timeseries) (t : ℚ) (nid : ℤ)
    (hbefore : ∃ r ∈ ds.records, r.value.isSome ∧ r.time < t)
    (hafter : ∃ r ∈ ds.records, r.value.isSome ∧ t < r.time) :
    ∃ tn tl, IsNextTime ds t tn ∧ IsLastTime ds t tl ∧
      ∃ orig dsnew, ds.split t nid = .ok (orig, dsnew) ∧
        (∀ r, r ∈ dsnew.records ↔ r ∈ ds.records ∧ tn ≤ r.time) ∧
        (∀ r, r ∈ orig.records ↔ r ∈ ds.records ∧ ¬ tn ≤ r.time) ∧
        (orig.records ++ dsnew.records).Perm ds.records ∧
        orig.end_ = some tl ∧ dsnew.start = some tn ∧
        orig.id = ds.id ∧ dsnew.id = nid ∧
        ContainsRef orig.comment dsnew.id ∧ ContainsRef dsnew.comment orig.id := by
  obtain ⟨tn, htn⟩ := exists_isNextTime
    (hafter.imp fun r hr => ⟨hr.1, hr.2.1, le_of_lt hr.2.2⟩)
  obtain ⟨tl, htl⟩ := exists_isLastTime
    (hbefore.imp fun r hr => ⟨hr.1, hr.2.1, le_of_lt hr.2.2⟩)
  obtain ⟨orig, dsnew, hsplit, hid, hnid, hrecsN, hrecsO, hperm, hend, hstart, href1, href2⟩ :=
    split_ok_spec nid htn htl
  refine ⟨tn, tl, htn, htl, orig, dsnew, hsplit, ?_, ?_, hperm, hend, hstart, hid, hnid,
    by rw [hnid]; exact href1, by rw [hid]; exact href2⟩
  · intro r
    rw [hrecsN]
    simp [List.mem_filter]
  · intro r
    rw [hrecsO]
    simp [List.mem_filter]

/-- Witness for `split_partitions` at the two-point dataset, split at `t = 5`. -/
theorem split_partitions_witness :
    ((∃ r ∈ dsTwoPoints.records, r.value.isSome ∧ r.time < 5) ∧
     (∃ r ∈ dsTwoPoints.records, r.value.isSome ∧ 5 < r.time)) ∧
    (∃ tn tl, IsNextTime dsTwoPoints 5 tn ∧ IsLastTime dsTwoPoints 5 tl ∧
      ∃ orig dsnew, dsTwoPoints.split 5 99 = .ok (orig, dsnew) ∧
        (∀ r, r ∈ dsnew.records ↔ r ∈ dsTwoPoints.records ∧ tn ≤ r.time) ∧
        (∀ r, r ∈ orig.records ↔ r ∈ dsTwoPoints.records ∧ ¬ tn ≤ r.time) ∧
        (orig.records ++ dsnew.records).Perm dsTwoPoints.records ∧
        orig.end_ = some tl ∧ dsnew.start = some tn ∧
        orig.id = dsTwoPoints.id ∧ dsnew.id = 99 ∧
        ContainsRef orig.comment dsnew.id ∧ ContainsRef dsnew.comment orig.id) :=
  ⟨⟨by decide, by decide⟩, split_partitions dsTwoPoints 5 99 (by decide) (by decide)⟩

/-- C3: splitting at a time with no non-null record at or after it, or none
at or before it, fails with `InvalidSplitPoint`; the embedding is pure, so
the failing call constructs no new dataset and leaves the input untouched. -/
theorem split_invalid_point (ds : Timeseries) (t : ℚ) (nid : ℤ)
    (h : (∀ r ∈ ds.records, r.value.isSome → ¬ t ≤ r.time) ∨
         (∀ r ∈ ds.records, r.value.isSome → ¬ r.time ≤ t)) :
    ds.split t nid = .error .invalidSplitPoint := by
  unfold Timeseries.split
  rcases h with h | h
  · have hnone : splitNextQuery ds t = none := by
      unfold splitNextQuery
      rw [queryFirstAsc_eq_none, List.filter_eq_nil_iff]
      intro r hr hcond
      obtain ⟨-, hv, ht⟩ := mem_splitNextFilter.mp (List.mem_filter.mpr ⟨hr, hcond⟩)
      exact h r hr hv ht
    rw [hnone]
  · have hnone : splitLastQuery ds t = none := by
      unfold splitLastQuery
      rw [queryFirstDesc_eq_none, List.filter_eq_nil_iff]
      intro r hr hcond
      obtain ⟨-, hv, ht⟩ := mem_splitLastFilter.mp (List.mem_filter.mpr ⟨hr, hcond⟩)
      exact h r hr hv ht
    rw [hnone]
    rcases splitNextQuery ds t with _ | m <;> rfl

/-- Witness for `split_invalid_point`: the one-point dataset split at `t = -5`
(no record at or before it). -/
theorem split_invalid_point_witness :
    ((∀ r ∈ dsOnePoint.records, r.value.isSome → ¬ 5 ≤ r.time) ∨
     (∀ r ∈ dsOnePoint.records, r.value.isSome → ¬ r.time ≤ (-5 : ℚ))) ∧
    dsOnePoint.split (-5) 99 = .error .invalidSplitPoint :=
  ⟨Or.inr (by decide), split_invalid_point dsOnePoint (-5) 99 (Or.inr (by decide))⟩

/-- C10: splitting exactly at a non-null record's time `t` succeeds even with
no other record straddling `t` (that record acts as both `last` and `next`);
the record at `t` and every later record move to the new dataset, both
validity bounds become `t`, and if every record lies at or after `t` (in
particular when the record at `t` is the only record) the original keeps no
records. -/
theorem split_at_record_time (ds : Timeseries) (t : ℚ) (nid : ℤ)
    (h : ∃ r ∈ ds.records, r.value.isSome ∧ r.time = t) :
    ∃ orig dsnew, ds.split t nid = .ok (orig, dsnew) ∧
      (∀ r, r ∈ dsnew.records ↔ r ∈ ds.records ∧ t ≤ r.time) ∧
      (∀ r, r ∈ orig.records ↔ r ∈ ds.records ∧ ¬ t ≤ r.time) ∧
      (orig.records ++ dsnew.records).Perm ds.records ∧
      orig.end_ = some t ∧ dsnew.start = some t ∧
      ((∀ r ∈ ds.records, t ≤ r.time) → orig.records = []) := by
  obtain ⟨r, hr, hv, ht⟩ := h
  have htn : IsNextTime ds t t :=
    ⟨⟨r, hr, hv, le_of_eq ht.symm, ht⟩, fun x _ _ hxt => hxt⟩
  have htl : IsLastTime ds t t :=
    ⟨⟨r, hr, hv, le_of_eq ht, ht⟩, fun x _ _ hxt => hxt⟩
  obtain ⟨orig, dsnew, hsplit, hid, hnid, hrecsN, hrecsO, hperm, hend, hstart, href1, href2⟩ :=
    split_ok_spec nid htn htl
  refine ⟨orig, dsnew, hsplit, ?_, ?_, hperm, hend, hstart, ?_⟩
  · intro x
    rw [hrecsN]
    simp [List.mem_filter]
  · intro x
    rw [hrecsO]
    simp [List.mem_filter]
  · intro hall
    rw [hrecsO, List.filter_eq_nil_iff]
    intro x hx
    simp [hall x hx]

/-- Witness for `split_at_record_time`: the one-point dataset split exactly at
its single record time `t = 0`. -/
theorem split_at_record_time_witness :
    (∃ r ∈ dsOnePoint.records, r.value.isSome ∧ r.time = 0) ∧
    (∃ orig dsnew, dsOnePoint.split 0 77 = .ok (orig, dsnew) ∧
      (∀ r, r ∈ dsnew.records ↔ r ∈ dsOnePoint.records ∧ 0 ≤ r.time) ∧
      (∀ r, r ∈ orig.records ↔ r ∈ dsOnePoint.records ∧ ¬ 0 ≤ r.time) ∧
      (orig.records ++ dsnew.records).Perm dsOnePoint.records ∧
      orig.end_ = some 0 ∧ dsnew.start = some 0 ∧
      ((∀ r ∈ dsOnePoint.records, 0 ≤ r.time) → orig.records = [])) :=
  ⟨by decide, split_at_record_time dsOnePoint 0 77 (by decide)⟩


theorem jumpCond_zero (last : Option Rec) (v : ℚ) : jumpCond 0 last v = true := by
  unfold jumpCond
  simp

theorem jumpsLoop_zero (last : Option Rec) (l : List Rec) :
    jumpsLoop 0 last l = l.filter (fun r => r.value.isSome) := by
  induction l generalizing last with
  | nil => rfl
  | cons r rest ih =>
    rcases hv : r.value with _ | v
    · simp [jumpsLoop, hv, ih, List.filter_cons]
    · simp [jumpsLoop, hv, jumpCond_zero, ih, List.filter_cons]

/-- C4: `findJumps(threshold=0)`, **amended**: on a dataset whose valid
(non-null, non-error) records inside its timespan number `n`, it yields
exactly `n` records — *every* valid record, including the first — in
ascending time order (the source's `threshold == 0.0` short-circuit fires
already at the first record, so the first valid record is yielded too). -/
theorem findjumps_zero_yields_all (ds : Timeseries) (s e : ℚ)
    (hs : ds.start = some s) (he : ds.end_ = some e) :
    (ds.findjumps 0 none none).Perm
      (ds.records.filter (fun r => r.validB && decide (s ≤ r.time) && decide (r.time ≤ e))) ∧
    List.Sorted timeAsc (ds.findjumps 0 none none) ∧
    (ds.findjumps 0 none none).length =
      (ds.records.filter (fun r => r.validB && decide (s ≤ r.time) && decide (r.time ≤ e))).length := by
  have hunfold : ds.findjumps 0 none none =
      jumpsLoop 0 none (List.insertionSort timeAsc (ds.records.filter (fun r =>
        r.validB && sqlGe r.time ds.start && sqlLe r.time ds.end_))) := rfl
  have hbounds : (fun (r : Rec) => r.validB && sqlGe r.time ds.start && sqlLe r.time ds.end_) =
      (fun r => r.validB && decide (s ≤ r.time) && decide (r.time ≤ e)) := by
    funext r
    rw [hs, he]
    rfl
  rw [hunfold, hbounds]
  rw [jumpsLoop_zero]
  have hall : ∀ r ∈ List.insertionSort timeAsc (ds.records.filter (fun r =>
      r.validB && decide (s ≤ r.time) && decide (r.time ≤ e))), r.value.isSome := by
    intro r hr
    have := (List.mem_insertionSort timeAsc).mp hr
    have hcond := (List.mem_filter.mp this).2
    simp only [Rec.validB, Bool.and_eq_true, Bool.not_eq_true] at hcond
    exact hcond.1.1.1
  rw [List.filter_eq_self.mpr hall]
  exact ⟨List.perm_insertionSort timeAsc _, List.sorted_insertionSort timeAsc _,
    List.length_insertionSort timeAsc _⟩

/-- Witness for `findjumps_zero_yields_all` at the two-point dataset. -/
theorem findjumps_zero_yields_all_witness :
    (dsTwoPoints.start = some 0 ∧ dsTwoPoints.end_ = some 10) ∧
    ((dsTwoPoints.findjumps 0 none none).Perm
      (dsTwoPoints.records.filter (fun r => r.validB && decide ((0:ℚ) ≤ r.time) && decide (r.time ≤ (10:ℚ)))) ∧
    List.Sorted timeAsc (dsTwoPoints.findjumps 0 none none) ∧
    (dsTwoPoints.findjumps 0 none none).length =
      (dsTwoPoints.records.filter (fun r => r.validB && decide ((0:ℚ) ≤ r.time) && decide (r.time ≤ (10:ℚ)))).length) :=
  ⟨⟨by decide, by decide⟩, findjumps_zero_yields_all dsTwoPoints 0 10 (by decide) (by decide)⟩

/-- C4 counterexample: the two-point dataset has `n = 2` valid records inside
its timespan, yet `findjumps(0)` yields 2 records, not `n - 1 = 1`: the claim
"exactly n-1 records, namely every valid record after the first one" is
false as stated. -/
theorem findjumps_zero_counterexample :
    (dsTwoPoints.findjumps 0 none none).length = 2 ∧
    (dsTwoPoints.records.filter (fun r =>
      r.validB && decide ((0:ℚ) ≤ r.time) && decide (r.time ≤ (10:ℚ)))).length = 2 ∧
    (2 : ℕ) ≠ 2 - 1 := by
  refine ⟨by decide, by decide, by decide⟩

/-- C6: on a dataset with zero non-null, non-error records, `statistics`
does *not* return `(0.0, 0.0, 0)` on its primary (SQL aggregate) path: with
an empty record set and calibration offset 5 it returns `(5.0, 0.0, 0)`
(the offset is applied to the NULL-replaced sentinel mean), and with a
single error record of raw value 7 it returns `(12.0, 0.0, 1)` (the SQL
path does not filter error records). The fallback path returns
`(0.0, 0.0, 0)` as claimed — the two branches of the same function
contradict each other. -/
theorem statistics_sql_empty_offset_leak :
    dsEmpty5.statistics_sql.1 = 5 ∧
    dsEmpty5.statistics_sql.2.1 = 0 ∧
    dsEmpty5.statistics_sql.2.2 = 0 ∧
    dsErr7.statistics_sql.1 = 12 ∧
    dsErr7.statistics_sql.2.2 = 1 ∧
    dsEmpty5.statistics_fallback = (some 0, some 0, 0) ∧
    (5 : ℚ) ≠ 0 := by
  refine ⟨?_, ?_, ?_, ?_, ?_, ?_, by norm_num⟩ <;>
    simp [Timeseries.statistics_sql, Timeseries.statistics_fallback, Timeseries.asseries,
      dsEmpty5, dsErr7, sqlAvg, sqlStddevSamp, npMean, npStd] <;> norm_num

/-- C7: the two computation paths of `statistics` provably disagree.
With one ordinary record (value 0) and one error record (value 100) the SQL
path aggregates over both (mean 50, count 2) while the fallback excludes the
error record (mean 0, count 1); and on two clean records (0 and 2) the SQL
path reports the sample standard deviation `sqrt 2` while the fallback
(`np.std`, ddof=0) reports the population standard deviation 1. -/
theorem statistics_paths_disagree :
    dsMixed.statistics_sql.1 = 50 ∧
    dsMixed.statistics_sql.2.2 = 2 ∧
    dsMixed.statistics_fallback.1 = some 0 ∧
    dsMixed.statistics_fallback.2.2 = 1 ∧
    dsClean02.statistics_sql.2.1 = Real.sqrt 2 ∧
    dsClean02.statistics_fallback.2.1 = some 1 ∧
    Real.sqrt 2 ≠ 1 := by
  have hne : Real.sqrt 2 ≠ 1 := by
    have h1 : (1 : ℝ) < Real.sqrt 2 := by
      rw [show (1 : ℝ) = Real.sqrt 1 from Real.sqrt_one.symm]
      exact Real.sqrt_lt_sqrt (by norm_num) (by norm_num)
    exact ne_of_gt h1
  refine ⟨?_, ?_, ?_, ?_, ?_, ?_, hne⟩ <;>
    simp [Timeseries.statistics_sql, Timeseries.statistics_fallback, Timeseries.asseries,
      dsMixed, dsClean02, sqlAvg, sqlStddevSamp, npMean, npStd,
      List.insertionSort, List.orderedInsert, rowLe] <;> norm_num [Real.sqrt_one]

theorem zipWith_pair_snd (rows : List (ℚ × Option ℚ)) :
    List.zipWith (fun (p : ℚ × Option ℚ) v => (p.1, v)) rows (rows.map Prod.snd) = rows := by
  induction rows with
  | nil => rfl
  | cons p rest ih => simp [ih]

theorem transform_var_series (rows : List (ℚ × Option ℚ)) :
    transform .var (.series rows) = .ok (.series rows) := by
  unfold transform PyObj.toNumpy Expr.evalNp pdSeriesWithIndex
  simp [zipWith_pair_snd]

theorem sorted_calibrated_sort (f : Option ℚ → Option ℚ) (rows : List (ℚ × Option ℚ)) :
    List.Sorted rowLe (if rows.isEmpty then [] else
      (List.insertionSort rowLe rows).map (fun p => (p.1, f p.2))) := by
  split
  · exact List.sorted_nil
  · exact List.Pairwise.map (fun p : ℚ × Option ℚ => (p.1, f p.2)) (fun a b hab => hab)
      (List.sorted_insertionSort rowLe rows)

theorem asseries_sorted (ds : Timeseries) (s e : Option ℚ) (we : Bool) :
    List.Sorted rowLe (ds.asseries s e we) := by
  unfold Timeseries.asseries
  exact sorted_calibrated_sort _ _

/-- C8: the identity transformation round-trips: for a transformed series
whose expression is the identity `x` and whose source list is a single
Timeseries, `asSeries(start, end)` equals that source's calibrated series
over `[start, end]` exactly (the final time-sort leaves the already
time-sorted source series unchanged). -/
theorem transformed_asseries_identity (tt : TransformedTimeseries) (src : Timeseries)
    (s e : Option ℚ) (hexpr : tt.expression = .var) (hsrc : tt.sources = [src]) :
    tt.asseries s e = .ok (src.asseries s e) := by
  unfold TransformedTimeseries.asseries
  rw [hexpr, hsrc]
  have h1 : ttAppend .var s e [src] [] = .ok (src.asseries s e) := by
    unfold ttAppend
    rw [transform_var_series]
    simp [ttAppend]
  rw [h1]
  show Except.ok (List.insertionSort rowLe (src.asseries s e)) = Except.ok (src.asseries s e)
  rw [(asseries_sorted src s e false).insertionSort_eq]

/-- Witness for `transformed_asseries_identity`: the identity transform over
the two-point dataset. -/
theorem transformed_asseries_identity_witness :
    (ttIdentity.expression = .var ∧ ttIdentity.sources = [dsTwoPoints]) ∧
    ttIdentity.asseries none none = .ok (dsTwoPoints.asseries none none) :=
  ⟨⟨rfl, rfl⟩, transformed_asseries_identity ttIdentity dsTwoPoints none none rfl rfl⟩

/-- C9: the per-record path of a transformed series can never agree with the
vectorized path, because it always raises: `iterrecords` hands the scalar
`r.calibrated` to `transform`, which immediately calls `x.to_numpy()` (and
`x.index`) on it — a float has neither attribute. On the identity transform
over the one-point dataset, `iterrecords` raises `AttributeError` at the
first record while `asseries` returns the series `[(0, 0.0)]`. -/
theorem iterrecords_scalar_transform_raises :
    ttOnePoint.iterrecords = .error .attributeError ∧
    ttOnePoint.asseries none none = .ok [(0, some 0)] := by
  constructor
  · rfl
  · have h2 : dsOnePoint.asseries none none = [(0, some 0)] := by
      simp [Timeseries.asseries, dsOnePoint, recA, rowLe, List.insertionSort,
        List.orderedInsert]
    have h1 : ttAppend .var none none [dsOnePoint] [] = .ok [(0, some 0)] := by
      unfold ttAppend
      rw [transform_var_series]
      simp [ttAppend, h2]
    show TransformedTimeseries.asseries ttOnePoint none none = _
    unfold TransformedTimeseries.asseries
    rw [show ttOnePoint.expression = .var from rfl, show ttOnePoint.sources = [dsOnePoint] from rfl,
      h1]
    rfl


/-- C5: `findDateGaps` never reports the internal gap. On datasets covering
[Jan1, Jan5] and [Jan8, Jan10] (days 1-5 and 8-10) with no bound arguments
it returns `[]`, not `[(Jan5, Jan8)]`; with explicit bounds (Dec25, Jan15)
(days -6 and 15) it returns only the leading and trailing gaps. The source's
internal-gap test subtracts in the wrong order (`ds1.end - ds2.start >=
timedelta(days=1)` is true for overlaps of a day or more, never for gaps),
contradicting its own comment "if there is a gap between". -/
theorem finddateGaps_misses_internal_gap :
    finddateGaps [gapDsA, gapDsB] 1 1 none none = some [] ∧
    finddateGaps [gapDsA, gapDsB] 1 1 (some (-6)) (some 15) = some [(-6, 1), (10, 15)] ∧
    ((5 : ℚ), (8 : ℚ)) ∉ ([] : List (ℚ × ℚ)) ∧
    ((5 : ℚ), (8 : ℚ)) ∉ [((-6 : ℚ), (1 : ℚ)), (10, 15)] := by
  refine ⟨?_, ?_, by simp, by norm_num⟩ <;>
    (simp [finddateGaps, gapDsA, gapDsB, vtStartLe, List.insertionSort, List.orderedInsert,
      List.getLastD]; norm_num)
